import Mathlib

/-!
Verification of the AI-Music-Analyser backend against its specification.

Each section shallowly embeds one part of the Python source
(`app/utils/extract_analytics.py`, `app/utils/extract_lyrics.py`,
`app/utils/seg_to_lrc.py`, `app/services/audio_processing.py`,
`app/services/crud.py`, `app/api/routes/process.py`,
`app/api/routes/get_analytics.py`) as executable Lean definitions and proves
or refutes the specification claims about it.  External collaborators
(librosa, boto3, the downloader, the source-separation model, the HTTP
client) are modelled as explicit environments supplying their outcomes;
Python floats are modelled as exact rationals, with NaN represented
explicitly where it matters.
-/

namespace AIMusic

/-! ### `downsample_array` (app/utils/extract_analytics.py, lines 204-220)

A numpy float array is modelled as a list of `FVal`: each element is either
NaN or an exact rational value.
-/

/-- One element of a numpy float array: NaN or a (rational-modelled) number. -/
inductive FVal where
  | nan : FVal
  | num : ℚ → FVal
deriving DecidableEq, Repr

/-- Whether an element is NaN. -/
def FVal.isNan : FVal → Bool
  | .nan => true
  | .num _ => false

/-- The numeric value of an element (0 for NaN; only used on non-NaN data). -/
def FVal.toQ : FVal → ℚ
  | .nan => 0
  | .num q => q

/-- `np.nan_to_num(x, nan=0.0)` on one element. -/
def nanToNum : FVal → FVal
  | .nan => .num 0
  | .num q => .num q

/-- `np.mean` over a 1-d slice: NaN if any element is NaN, else sum / length. -/
def fmean (xs : List FVal) : FVal :=
  if xs.any FVal.isNan then .nan
  else .num ((xs.map FVal.toQ).sum / xs.length)

/-- Fuel-indexed worker computing the row means of `arr.reshape(-1, c)`:
consumes the list `c` elements at a time, emitting the mean of each chunk. -/
def chunkMeansGo (c : ℕ) : ℕ → List FVal → List FVal
  | 0, _ => []
  | _ + 1, [] => []
  | fuel + 1, x :: xs => fmean ((x :: xs).take c) :: chunkMeansGo c fuel ((x :: xs).drop c)

/-- `arr.reshape(-1, c).mean(axis=1)` for a list whose length is a multiple
of `c` (the callers trim the list first, exactly as the source does). -/
def chunkMeans (c : ℕ) (l : List FVal) : List FVal := chunkMeansGo c l.length l

/-- Embedding of `downsample_array(arr, target_points)`: returns the array
unchanged when its length is at most the target, else trims to a multiple of
the chunk size, replaces NaN by 0, and averages each chunk. -/
def downsample_array (arr : List FVal) (target_points : ℕ) : List FVal :=
  if arr.length ≤ target_points then arr
  else
    let original_len := arr.length
    let chunk_size := max 1 (original_len / target_points)
    let trimmed_len := (original_len / chunk_size) * chunk_size
    let arr_trimmed := (arr.take trimmed_len).map nanToNum
    chunkMeans chunk_size arr_trimmed

theorem chunkMeansGo_length (c : ℕ) (hc : 0 < c) :
    ∀ (k fuel : ℕ) (l : List FVal), l.length = k * c → l.length ≤ fuel →
      (chunkMeansGo c fuel l).length = k := by
  intro k
  induction k with
  | zero =>
    intro fuel l hl _
    have : l = [] := List.eq_nil_of_length_eq_zero (by simpa using hl)
    subst this
    cases fuel <;> simp [chunkMeansGo]
  | succ k ih =>
    intro fuel l hl hfuel
    have hlen : 0 < l.length := by
      rw [hl]; exact Nat.mul_pos (Nat.succ_pos k) hc
    obtain ⟨x, xs, rfl⟩ : ∃ x xs, l = x :: xs := by
      cases l with
      | nil => simp at hlen
      | cons x xs => exact ⟨x, xs, rfl⟩
    obtain ⟨f, rfl⟩ : ∃ f, fuel = f + 1 := by
      cases fuel with
      | zero => omega
      | succ f => exact ⟨f, rfl⟩
    simp only [chunkMeansGo, List.length_cons]
    have hmul : (k + 1) * c = k * c + c := Nat.succ_mul k c
    rw [hmul] at hl
    have hdrop : ((x :: xs).drop c).length = k * c := by
      simp only [List.length_drop]
      simp only [List.length_cons] at hl ⊢
      omega
    have hfuel' : ((x :: xs).drop c).length ≤ f := by
      rw [hdrop]
      simp only [List.length_cons] at hl hfuel
      omega
    rw [ih f _ hdrop hfuel']

theorem fmean_not_nan (xs : List FVal) (h : ∀ x ∈ xs, x.isNan = false) :
    (fmean xs).isNan = false := by
  have : xs.any FVal.isNan = false := by
    simp only [List.any_eq_false]
    intro x hx
    simp [h x hx]
  simp [fmean, this, FVal.isNan]

theorem chunkMeansGo_not_nan (c : ℕ) :
    ∀ (fuel : ℕ) (l : List FVal), (∀ x ∈ l, x.isNan = false) →
      ∀ y ∈ chunkMeansGo c fuel l, y.isNan = false := by
  intro fuel
  induction fuel with
  | zero => intro l _ y hy; simp [chunkMeansGo] at hy
  | succ f ih =>
    intro l hl y hy
    cases l with
    | nil => simp [chunkMeansGo] at hy
    | cons x xs =>
      simp only [chunkMeansGo, List.mem_cons] at hy
      rcases hy with rfl | hy
      · exact fmean_not_nan _ (fun z hz => hl z (List.mem_of_mem_take hz))
      · exact ih _ (fun z hz => hl z (List.mem_of_mem_drop hz)) y hy

set_option maxRecDepth 4000 in
/-- C5 counterexample: the claim fails on the code.  With the configured
target of 150 points, an input of 151 elements is downsampled to 151 points
(chunk size `151 / 150 = 1`), exceeding the target; and an input of length
at most the target is returned unchanged, so a NaN in it survives. -/
theorem C5_downsample_counterexample :
    (downsample_array (List.replicate 151 (FVal.num 0)) 150).length = 151 ∧
    downsample_array [FVal.nan] 150 = [FVal.nan] := by
  constructor
  · rfl
  · rfl

/-- C5 (amended): the downsampled series has length at most `2 * target - 1`
(not `target`); when the input is strictly longer than the target the output
contains no NaN (NaN is replaced by 0 before averaging); when the input is no
longer than the target it is returned unchanged (so NaN may persist there). -/
theorem C5_downsample_amended :
    (∀ (arr : List FVal) (t : ℕ), 1 ≤ t →
       (downsample_array arr t).length ≤ 2 * t - 1) ∧
    (∀ (arr : List FVal) (t : ℕ), t < arr.length →
       ∀ y ∈ downsample_array arr t, y.isNan = false) ∧
    (∀ (arr : List FVal) (t : ℕ), arr.length ≤ t → downsample_array arr t = arr) := by
  refine ⟨?_, ?_, ?_⟩
  · intro arr t ht
    by_cases h : arr.length ≤ t
    · simp only [downsample_array, if_pos h]
      omega
    · simp only [downsample_array, if_neg h]
      push_neg at h
      set n := arr.length with hn
      have hdiv : 1 ≤ n / t := (Nat.one_le_div_iff (by omega)).mpr (by omega)
      have hc : max 1 (n / t) = n / t := Nat.max_eq_right hdiv
      rw [hc]
      set c := n / t with hcdef
      have hcpos : 0 < c := hdiv
      have htake : ((arr.take (n / c * c)).map nanToNum).length = (n / c) * c := by
        simp only [List.length_map, List.length_take]
        exact min_eq_left (Nat.div_mul_le_self n c)
      have hlen := chunkMeansGo_length c hcpos (n / c)
        ((arr.take (n / c * c)).map nanToNum).length
        ((arr.take (n / c * c)).map nanToNum) htake (le_refl _)
      rw [chunkMeans, hlen]
      -- n / c < 2 * t since n < t * (c + 1) ≤ 2 * t * c
      have hmod : t * c + n % t = n := Nat.div_add_mod n t
      have hmodlt : n % t < t := Nat.mod_lt _ (by omega)
      have hnlt : n < 2 * t * c := by
        have h1 : n < t * c + t := by omega
        have h2 : t * c + t = t * (c + 1) := by ring
        have h3 : t * (c + 1) ≤ t * (2 * c) := Nat.mul_le_mul_left t (by omega)
        have h4 : t * (2 * c) = 2 * t * c := by ring
        omega
      have := (Nat.div_lt_iff_lt_mul hcpos).mpr
        (by calc n < 2 * t * c := hnlt)
      omega
  · intro arr t hlt y hy
    have h : ¬ arr.length ≤ t := by omega
    simp only [downsample_array, if_neg h, chunkMeans] at hy
    refine chunkMeansGo_not_nan _ _ _ ?_ y hy
    intro x hx
    rcases List.mem_map.mp hx with ⟨z, _, rfl⟩
    cases z <;> simp [nanToNum, FVal.isNan]
  · intro arr t h
    simp [downsample_array, if_pos h]

/-- Closed witness for `C5_downsample_amended` at concrete inputs. -/
theorem C5_downsample_amended_witness :
    (downsample_array [FVal.nan, FVal.num 1, FVal.num 2] 2).length ≤ 2 * 2 - 1 ∧
    (∀ y ∈ downsample_array [FVal.nan, FVal.num 1, FVal.num 2] 2, y.isNan = false) ∧
    downsample_array [FVal.num 5] 3 = [FVal.num 5] :=
  ⟨C5_downsample_amended.1 [FVal.nan, FVal.num 1, FVal.num 2] 2 (by decide),
   C5_downsample_amended.2.1 [FVal.nan, FVal.num 1, FVal.num 2] 2 (by decide),
   C5_downsample_amended.2.2 [FVal.num 5] 3 (by decide)⟩

/-! ### `transcribe_lyrics` retry loop (app/utils/extract_lyrics.py, lines 56-100)

The HTTP call is modelled by an environment assigning to every attempt index
the outcome of `requests.post` + `raise_for_status`: either a response with a
given status code, or a network-level failure (`RequestException`).
-/

/-- Outcome of one transcription HTTP attempt. -/
inductive HttpAttempt where
  | status (code : ℕ) : HttpAttempt
  | netFail : HttpAttempt
deriving DecidableEq, Repr

/-- Observable outcome of `transcribe_lyrics`' retry loop: how many attempts
were made, which backoff sleeps happened (in order), and whether the loop
obtained a response (`ok`) or raised an `HTTPException` with a status code. -/
structure TranscribeOutcome where
  attempts : ℕ
  sleeps : List ℕ
  result : Except ℕ Unit
deriving Repr

/-- Worker mirroring `for attempt in range(max_retries)` in
`transcribe_lyrics`: `a` is the current attempt index, `r + a = max_retries`
is the loop-bound invariant, `sleeps` accumulates backoff waits in reverse.
`raise_for_status` raises for codes in [400, 600); codes in [500, 600) retry
with backoff `2 ^ attempt` unless this is the last attempt (then the function
raises HTTPException 500); other raised codes (the 4xx range) re-raise
immediately with the response's status; network errors retry like 5xx.
Exhausting the loop without a break hits the `for`-`else` clause, which
raises HTTPException 500. -/
def transcribeGo (resp : ℕ → HttpAttempt) : ℕ → ℕ → List ℕ → TranscribeOutcome
  | a, 0, sleeps => ⟨a, sleeps.reverse, .error 500⟩
  | a, r + 1, sleeps =>
    match resp a with
    | .status c =>
      if 400 ≤ c ∧ c < 600 then
        if 500 ≤ c then
          if r = 0 then ⟨a + 1, sleeps.reverse, .error 500⟩
          else transcribeGo resp (a + 1) r (2 ^ a :: sleeps)
        else ⟨a + 1, sleeps.reverse, .error c⟩
      else ⟨a + 1, sleeps.reverse, .ok ()⟩
    | .netFail =>
      if r = 0 then ⟨a + 1, sleeps.reverse, .error 500⟩
      else transcribeGo resp (a + 1) r (2 ^ a :: sleeps)

/-- The retry loop of `transcribe_lyrics` with a given `max_retries`
(the source default is 3). -/
def transcribe_lyrics_loop (resp : ℕ → HttpAttempt) (max_retries : ℕ) :
    TranscribeOutcome :=
  transcribeGo resp 0 max_retries []

/-- A response outcome is a server-side (5xx) error. -/
def is5xx : HttpAttempt → Prop
  | .status c => 500 ≤ c ∧ c < 600
  | .netFail => False

theorem transcribeGo_all_5xx (resp : ℕ → HttpAttempt) :
    ∀ (r a : ℕ) (sleeps : List ℕ), 1 ≤ r →
      (∀ i, a ≤ i → i < a + r → is5xx (resp i)) →
      transcribeGo resp a r sleeps =
        ⟨a + r, sleeps.reverse ++ (List.range' a (r - 1)).map (2 ^ ·), .error 500⟩ := by
  intro r
  induction r with
  | zero => omega
  | succ r ih =>
    intro a sleeps _ hresp
    have h5 : is5xx (resp a) := hresp a le_rfl (by omega)
    cases hr : resp a with
    | netFail => rw [hr] at h5; exact absurd h5 not_false
    | status c =>
      rw [hr] at h5
      obtain ⟨hc1, hc2⟩ := h5
      simp only [transcribeGo, hr]
      rw [if_pos ⟨by omega, hc2⟩, if_pos hc1]
      cases r with
      | zero => simp
      | succ r' =>
        rw [if_neg (by omega)]
        rw [ih (a + 1) (2 ^ a :: sleeps) (by omega)
          (fun i h1 h2 => hresp i (by omega) (by omega))]
        have hnum : a + 1 + (r' + 1) = a + (r' + 1 + 1) := by omega
        have hrange : List.range' a (r' + 1 + 1 - 1) =
            a :: List.range' (a + 1) (r' + 1 - 1) := by
          simp only [Nat.add_sub_cancel]
          exact List.range'_succ a r' 1
        have hlist : (2 ^ a :: sleeps).reverse ++
              (List.range' (a + 1) (r' + 1 - 1)).map (2 ^ ·) =
            sleeps.reverse ++ (List.range' a (r' + 1 + 1 - 1)).map (2 ^ ·) := by
          rw [hrange]
          simp
        rw [TranscribeOutcome.mk.injEq]
        exact ⟨hnum, hlist, rfl⟩

/-- C6: on repeated server-side (5xx) responses, `transcribe_lyrics` makes
exactly `max_retries` attempts with exponential backoff sleeps
`2^0, …, 2^(max_retries-2)` between them and then surfaces an
HTTPException 500; a client-side (4xx) response on the first attempt raises
an HTTPException carrying that status immediately, after exactly one attempt
and with no retry sleep. -/
theorem C6_transcribe_retry :
    (∀ (resp : ℕ → HttpAttempt) (mr : ℕ), 1 ≤ mr →
       (∀ i, i < mr → is5xx (resp i)) →
       transcribe_lyrics_loop resp mr =
         ⟨mr, (List.range (mr - 1)).map (2 ^ ·), .error 500⟩) ∧
    (∀ (resp : ℕ → HttpAttempt) (mr c : ℕ), 1 ≤ mr →
       resp 0 = .status c → 400 ≤ c → c < 500 →
       transcribe_lyrics_loop resp mr = ⟨1, [], .error c⟩) := by
  constructor
  · intro resp mr h1 hresp
    rw [transcribe_lyrics_loop,
      transcribeGo_all_5xx resp mr 0 [] h1 (fun i _ h2 => hresp i (by omega))]
    simp [List.range_eq_range']
  · intro resp mr c h1 hr hc1 hc2
    obtain ⟨r, rfl⟩ : ∃ r, mr = r + 1 := ⟨mr - 1, by omega⟩
    simp only [transcribe_lyrics_loop, transcribeGo, hr]
    rw [if_pos ⟨hc1, by omega⟩, if_neg (by omega)]
    simp

/-- Closed witness for `C6_transcribe_retry`: with the default
`max_retries = 3`, three straight 503 responses give 3 attempts, sleeps
`[1, 2]` and a raised 500; a single 404 gives 1 attempt and a raised 404. -/
theorem C6_transcribe_retry_witness :
    transcribe_lyrics_loop (fun _ => .status 503) 3 = ⟨3, [1, 2], .error 500⟩ ∧
    transcribe_lyrics_loop (fun _ => .status 404) 3 = ⟨1, [], .error 404⟩ := by
  constructor
  · have h := C6_transcribe_retry.1 (fun _ => .status 503) 3 (by omega)
      (fun i _ => by constructor <;> omega)
    rw [h]; rfl
  · exact C6_transcribe_retry.2 (fun _ => .status 404) 3 404 (by omega) rfl
      (by omega) (by omega)

/-! ### Per-stem analytics (app/utils/extract_analytics.py, lines 224-624)

JSON blobs are modelled by an inductive `Json` type.  Each analytics
function wraps its whole body in try/except; the library computations
(librosa.load, pyin, feature extraction) are modelled by a
`StemAnalysisEnv` recording their outcomes; an exception raised anywhere in
the body is an `Except.error` carrying the exception's message.
-/

/-- A JSON value (the shape of the analytics blobs and JSONB columns). -/
inductive Json where
  | null : Json
  | bool (b : Bool) : Json
  | str (s : String) : Json
  | num (q : ℚ) : Json
  | arr (xs : List Json) : Json
  | obj (kvs : List (String × Json)) : Json
deriving Repr

/-- The one-key error dict `{"error": msg}` every analytics function
produces on failure. -/
def mkErr (msg : String) : Json := Json.obj [("error", Json.str msg)]

/-- Outcomes of the external library calls inside one analytics function:
whether the audio file exists (a missing file makes `librosa.load` raise,
with `loadErrMsg` as the exception's message), the loaded duration, the
pyin voiced-frame count (or a raised exception's message), and the
remaining feature computation (its assembled result dict or a raised
exception's message). -/
structure StemAnalysisEnv where
  fileExists : Bool
  loadErrMsg : String
  duration : ℚ
  pyin : Except String ℕ
  rest : Except String Json

/-- Body of `extract_vocal_analytics` before the except clause: load (raises
on a missing file), the minimum-duration early return, pyin, the
voiced-count early return, then the remaining analysis. -/
def vocalBody (e : StemAnalysisEnv) : Except String Json := do
  if e.fileExists = false then throw e.loadErrMsg
  if e.duration < 1 then
    return mkErr "Audio duration is too short for meaningful analysis."
  let v ← e.pyin
  if v < 10 then
    return mkErr "No significant voiced sections found to analyze."
  e.rest

/-- Body shared by the bass/drums/piano/other analytics functions: load
(raises on a missing file) then the remaining analysis. -/
def simpleStemBody (e : StemAnalysisEnv) : Except String Json := do
  if e.fileExists = false then throw e.loadErrMsg
  e.rest

/-- Body of `extract_guitar_analytics`: load, the minimum-duration early
return, then the remaining analysis. -/
def guitarBody (e : StemAnalysisEnv) : Except String Json := do
  if e.fileExists = false then throw e.loadErrMsg
  if e.duration < 1 then
    return mkErr "Audio is too short for meaningful guitar analysis."
  e.rest

/-- Body of `_extract_melodic_instrument_data`: load, pyin, the
voiced-count early return, then the remaining analysis. -/
def melodicBody (instrument_name : String) (e : StemAnalysisEnv) :
    Except String Json := do
  if e.fileExists = false then throw e.loadErrMsg
  let v ← e.pyin
  if v < 10 then
    return mkErr ("Could not detect a clear melody for " ++ instrument_name ++ ".")
  e.rest

/-- `extract_vocal_analytics`: the whole body runs inside try/except; any
exception becomes `{"error": "Could not process vocals for '<path>': <e>"}`. -/
def extract_vocal_analytics (audio_path : String) (e : StemAnalysisEnv) : Json :=
  match vocalBody e with
  | .ok j => j
  | .error msg => mkErr ("Could not process vocals for '" ++ audio_path ++ "': " ++ msg)

/-- `extract_bass_analytics` with its except clause. -/
def extract_bass_analytics (_audio_path : String) (e : StemAnalysisEnv) : Json :=
  match simpleStemBody e with
  | .ok j => j
  | .error msg => mkErr ("Could not process bass: " ++ msg)

/-- `extract_drums_analytics` with its except clause. -/
def extract_drums_analytics (_audio_path : String) (e : StemAnalysisEnv) : Json :=
  match simpleStemBody e with
  | .ok j => j
  | .error msg => mkErr ("Could not process drums: " ++ msg)

/-- `extract_piano_analytics` with its except clause. -/
def extract_piano_analytics (_audio_path : String) (e : StemAnalysisEnv) : Json :=
  match simpleStemBody e with
  | .ok j => j
  | .error msg => mkErr ("Could not process piano: " ++ msg)

/-- `extract_other_analytics` with its except clause. -/
def extract_other_analytics (_audio_path : String) (e : StemAnalysisEnv) : Json :=
  match simpleStemBody e with
  | .ok j => j
  | .error msg => mkErr ("Could not process other stem: " ++ msg)

/-- `extract_guitar_analytics` with its except clause. -/
def extract_guitar_analytics (_audio_path : String) (e : StemAnalysisEnv) : Json :=
  match guitarBody e with
  | .ok j => j
  | .error msg => mkErr ("Could not process for guitar: " ++ msg)

/-- `_extract_melodic_instrument_data` with its except clause (the
pitch-range bounds fmin/fmax only parametrize the external pyin call, which
the environment models, so they do not appear here). -/
def _extract_melodic_instrument_data (_audio_path instrument_name : String)
    (e : StemAnalysisEnv) : Json :=
  match melodicBody instrument_name e with
  | .ok j => j
  | .error msg => mkErr ("Could not process for " ++ instrument_name ++ ": " ++ msg)

/-- `extract_violin_analytics`. -/
def extract_violin_analytics (audio_path : String) (e : StemAnalysisEnv) : Json :=
  _extract_melodic_instrument_data audio_path "violin" e

/-- `extract_flute_analytics`. -/
def extract_flute_analytics (audio_path : String) (e : StemAnalysisEnv) : Json :=
  _extract_melodic_instrument_data audio_path "flute" e

/-- The 8 analysis task classes of `run_analysis_in_parallel`
(app/utils/parallel_processor.py). -/
inductive AStem where
  | vocal | bass | drums | piano | other | guitar | violin | flute
deriving DecidableEq, Repr

/-- The WAV filename each analysis task is pointed at (guitar, violin and
flute reuse the "other" stem file). -/
def stemFileName : AStem → String
  | .vocal => "vocals.wav"
  | .bass => "bass.wav"
  | .drums => "drums.wav"
  | .piano => "piano.wav"
  | .other => "other.wav"
  | .guitar => "other.wav"
  | .violin => "other.wav"
  | .flute => "other.wav"

/-- Dispatch of one analysis task to its function, as listed in the `tasks`
table of `run_analysis_in_parallel`. -/
def stemExtract (stems_output_dir : String) (s : AStem) (e : StemAnalysisEnv) : Json :=
  let path := stems_output_dir ++ "/" ++ stemFileName s
  match s with
  | .vocal => extract_vocal_analytics path e
  | .bass => extract_bass_analytics path e
  | .drums => extract_drums_analytics path e
  | .piano => extract_piano_analytics path e
  | .other => extract_other_analytics path e
  | .guitar => extract_guitar_analytics path e
  | .violin => extract_violin_analytics path e
  | .flute => extract_flute_analytics path e

/-- `run_analysis_in_parallel`: runs the 8 tasks (in separate worker
processes) and maps each task name to its result.  Each worker's outcome
depends only on that worker's own environment. -/
def run_analysis_in_parallel (stems_output_dir : String)
    (env : AStem → StemAnalysisEnv) : AStem → Json :=
  fun s => stemExtract stems_output_dir s (env s)

/-- A JSON value that is a dict containing only an `error` key with a
string message. -/
def OneKeyError (j : Json) : Prop := ∃ msg, j = Json.obj [("error", Json.str msg)]

/-- The try-protected body of the analytics function run for each task
class (everything before its except clause). -/
def stemBody : AStem → StemAnalysisEnv → Except String Json
  | .vocal, e => vocalBody e
  | .guitar, e => guitarBody e
  | .violin, e => melodicBody "violin" e
  | .flute, e => melodicBody "flute" e
  | .bass, e => simpleStemBody e
  | .drums, e => simpleStemBody e
  | .piano, e => simpleStemBody e
  | .other, e => simpleStemBody e

/-- C4: every per-stem analytics function, called on a missing file, returns
a dict containing only an `error` key (first conjunct); every exception in a
function's body is caught and converted to such a dict rather than
propagated (second conjunct, shown for the dispatch of all 8 task classes);
and replacing one task's environment (e.g. by a failing one) never changes
another task's result (third conjunct). -/
theorem C4_analytics_error_isolation :
    (∀ (path : String) (e : StemAnalysisEnv), e.fileExists = false →
       OneKeyError (extract_vocal_analytics path e) ∧
       OneKeyError (extract_bass_analytics path e) ∧
       OneKeyError (extract_drums_analytics path e) ∧
       OneKeyError (extract_piano_analytics path e) ∧
       OneKeyError (extract_other_analytics path e) ∧
       OneKeyError (extract_guitar_analytics path e) ∧
       OneKeyError (extract_violin_analytics path e) ∧
       OneKeyError (extract_flute_analytics path e)) ∧
    (∀ (dir : String) (s : AStem) (e : StemAnalysisEnv) (msg : String),
       stemBody s e = .error msg →
       OneKeyError (stemExtract dir s e)) ∧
    (∀ (dir : String) (env : AStem → StemAnalysisEnv) (s t : AStem)
       (e : StemAnalysisEnv), s ≠ t →
       run_analysis_in_parallel dir (Function.update env t e) s =
         run_analysis_in_parallel dir env s) := by
  refine ⟨?_, ?_, ?_⟩
  · intro path e he
    refine ⟨?_, ?_, ?_, ?_, ?_, ?_, ?_, ?_⟩ <;>
      simp [extract_vocal_analytics, extract_bass_analytics,
        extract_drums_analytics, extract_piano_analytics,
        extract_other_analytics, extract_guitar_analytics,
        extract_violin_analytics, extract_flute_analytics,
        _extract_melodic_instrument_data, vocalBody, simpleStemBody,
        guitarBody, melodicBody, he, OneKeyError, mkErr] <;>
      exact ⟨_, rfl⟩
  · intro dir s e msg hbody
    cases s <;>
      simp only [stemBody] at hbody <;>
      simp only [stemExtract, extract_vocal_analytics, extract_bass_analytics,
        extract_drums_analytics, extract_piano_analytics,
        extract_other_analytics, extract_guitar_analytics,
        extract_violin_analytics, extract_flute_analytics,
        _extract_melodic_instrument_data] <;>
      rw [hbody] <;> exact ⟨_, rfl⟩
  · intro dir env s t e hst
    simp [run_analysis_in_parallel, Function.update_noteq hst]

/-- Closed witness for `C4_analytics_error_isolation` on a concrete missing
file and a concrete environment replacement. -/
theorem C4_analytics_error_isolation_witness :
    OneKeyError (extract_vocal_analytics "stems/vocals.wav"
      ⟨false, "file not found", 0, Except.ok 0, Except.ok Json.null⟩) ∧
    OneKeyError (stemExtract "stems" AStem.bass
      ⟨false, "file not found", 0, Except.ok 0, Except.ok Json.null⟩) ∧
    run_analysis_in_parallel "stems"
      (Function.update (fun _ => ⟨true, "", 5, Except.ok 20, Except.ok Json.null⟩)
        AStem.drums ⟨false, "boom", 0, Except.ok 0, Except.ok Json.null⟩)
      AStem.vocal =
      run_analysis_in_parallel "stems"
        (fun _ => ⟨true, "", 5, Except.ok 20, Except.ok Json.null⟩) AStem.vocal :=
  ⟨(C4_analytics_error_isolation.1 "stems/vocals.wav"
      ⟨false, "file not found", 0, Except.ok 0, Except.ok Json.null⟩ rfl).1,
   C4_analytics_error_isolation.2.1 "stems" AStem.bass
      ⟨false, "file not found", 0, Except.ok 0, Except.ok Json.null⟩
      "file not found" rfl,
   C4_analytics_error_isolation.2.2 "stems" _ AStem.vocal AStem.drums _
      (by decide)⟩

/-! ### Data model and CRUD (app/db/models.py, app/dto/schemas.py,
app/services/crud.py)

The relational state is a `DB` value: committed `songs` and `splits` rows,
auto-increment counters for the generated primary keys, the session's
pending (added but uncommitted) rows, and the session's `is_active` flag.
-/

/-- A row of the `songs` table. -/
structure SongRow where
  id : ℕ
  title : String
  song_url : String
  lyrics : Json
  description : Json
  owner_id : ℕ
deriving Repr

/-- A row of the `splits` table. -/
structure SplitRow where
  id : ℕ
  song_id : ℕ
  bass_audio_url : Option String
  vocals_audio_url : Option String
  piano_audio_url : Option String
  other_audio_url : Option String
  drum_audio_url : Option String
  bass_description : Json
  vocals_description : Json
  piano_description : Json
  other_description : Json
  drum_description : Json
  guitar_description : Json
  flute_description : Json
  violin_description : Json
deriving Repr

/-- Database plus session state seen by one request. -/
structure DB where
  songs : List SongRow
  splits : List SplitRow
  nextSongId : ℕ
  nextSplitId : ℕ
  pendingSongs : List SongRow
  pendingSplits : List SplitRow
  active : Bool
deriving Repr

/-- `schemas.SongCreateDTO` (lyrics and description are Optional). -/
structure SongCreateDTO where
  title : String
  owner_id : ℕ
  song_url : String
  lyrics : Option Json
  description : Option Json

/-- `schemas.SplitCreateDTO` (absent JSONB values are `Json.null`). -/
structure SplitCreateDTO where
  song_id : ℕ
  bass_audio_url : Option String
  vocals_audio_url : Option String
  piano_audio_url : Option String
  other_audio_url : Option String
  drum_audio_url : Option String
  bass_description : Json
  vocals_description : Json
  piano_description : Json
  other_description : Json
  drum_description : Json
  guitar_description : Json
  flute_description : Json
  violin_description : Json

/-- `crud.create_song`: builds the row (defaulting lyrics to `{}` and
description to `""`), adds it, commits (writing all pending rows), and
refreshes to read the generated id. -/
def create_song (db : DB) (song : SongCreateDTO) : SongRow × DB :=
  let db_song : SongRow :=
    { id := db.nextSongId
      title := song.title
      song_url := song.song_url
      lyrics := song.lyrics.getD (Json.obj [])
      description := song.description.getD (Json.str "")
      owner_id := song.owner_id }
  (db_song,
   { db with
      songs := db.songs ++ db.pendingSongs ++ [db_song]
      splits := db.splits ++ db.pendingSplits
      nextSongId := db.nextSongId + 1
      pendingSongs := []
      pendingSplits := [] })

/-- `crud.create_split`: copies the DTO into a row, adds it, commits, and
refreshes to read the generated id. -/
def create_split (db : DB) (split : SplitCreateDTO) : SplitRow × DB :=
  let db_split : SplitRow :=
    { id := db.nextSplitId
      song_id := split.song_id
      bass_audio_url := split.bass_audio_url
      vocals_audio_url := split.vocals_audio_url
      piano_audio_url := split.piano_audio_url
      other_audio_url := split.other_audio_url
      drum_audio_url := split.drum_audio_url
      bass_description := split.bass_description
      vocals_description := split.vocals_description
      piano_description := split.piano_description
      other_description := split.other_description
      drum_description := split.drum_description
      guitar_description := split.guitar_description
      flute_description := split.flute_description
      violin_description := split.violin_description }
  (db_split,
   { db with
      songs := db.songs ++ db.pendingSongs
      splits := db.splits ++ db.pendingSplits ++ [db_split]
      nextSplitId := db.nextSplitId + 1
      pendingSongs := []
      pendingSplits := [] })

/-- `db.rollback()`: pending (uncommitted) rows are discarded; committed
rows are untouched. -/
def rollback (db : DB) : DB :=
  { db with pendingSongs := [], pendingSplits := [] }

/-! ### The processing pipeline (app/services/audio_processing.py)

External collaborators (downloader, S3 uploader, spleeter, pydub) are
modelled by a `PipelineEnv` whose `Except Unit _` fields record whether the
call raised or what it returned.  `as_completed` result collection is
modelled in the fixed stem order (exceptions from any stem future abort the
collection; the collected URL dictionary itself is order-independent).
-/

/-- The five stem names the pipeline converts and uploads. -/
inductive StemName where
  | vocals | bass | drums | piano | other
deriving DecidableEq, Repr

/-- The stem's file base name, as used for the dictionary key. -/
def stemNameStr : StemName → String
  | .vocals => "vocals"
  | .bass => "bass"
  | .drums => "drums"
  | .piano => "piano"
  | .other => "other"

/-- External outcomes seen by `process_and_upload_stem` for one stem:
whether the separated WAV exists, whether the pydub conversion raises, and
the upload's outcome (a raise, or `None` / a URL). -/
structure StemEnv where
  wavExists : Bool
  convertRaises : Bool
  upload : Except Unit (Option String)

/-- `process_and_upload_stem`: a missing WAV returns `None` (not an error);
a conversion failure raises; an upload returning `None` yields `None`;
otherwise the pair (stem file base name, URL) is returned. -/
def process_and_upload_stem (e : StemEnv) (stem_name : String) :
    Except Unit (Option (String × String)) :=
  if e.wavExists = false then .ok none
  else if e.convertRaises then .error ()
  else
    match e.upload with
    | .error u => .error u
    | .ok none => .ok none
    | .ok (some url) => .ok (some (stem_name, url))

/-- The stage at which the pipeline body raised. -/
inductive PipelineErr where
  | downloadErr
  | audioNotFound
  | uploadOrigErr
  | analyticsErr
  | spleeterErr
  | songUrlMissing
  | stemErr (s : StemName)
deriving DecidableEq, Repr

/-- The ids returned by a successful pipeline run
(`{"songs_id": …, "splits_id": …}`). -/
structure PipeResult where
  songs_id : ℕ
  splits_id : ℕ
deriving DecidableEq, Repr

/-- The stem URLs collected into `s3_urls` and read back per stem name. -/
structure StemUrls where
  vocals : Option String
  bass : Option String
  drums : Option String
  piano : Option String
  other : Option String
deriving DecidableEq, Repr

/-- `s3_urls.get(name)` for each of the five stems. -/
def StemUrls.get : StemUrls → StemName → Option String
  | u, .vocals => u.vocals
  | u, .bass => u.bass
  | u, .drums => u.drums
  | u, .piano => u.piano
  | u, .other => u.other

/-- The URL recorded in a Split row for each of the five uploaded stems. -/
def SplitRow.urlOf : SplitRow → StemName → Option String
  | row, .vocals => row.vocals_audio_url
  | row, .bass => row.bass_audio_url
  | row, .drums => row.drum_audio_url
  | row, .piano => row.piano_audio_url
  | row, .other => row.other_audio_url

/-- The URL a collected stem result contributes (`None` results contribute
no dictionary entry, hence no URL). -/
def urlOf (r : Option (String × String)) : Option String := r.map Prod.snd

/-- All external outcomes of one `full_song_processing_pipeline` run. -/
structure PipelineEnv where
  download : Except Unit String
  audioFound : Bool
  uploadOrig : Except Unit (Option String)
  analyzeOrig : Except Unit Json
  spleeter : Except Unit Unit
  stems_output_dir : String
  stem : StemName → StemEnv
  analysis : AStem → StemAnalysisEnv

/-- The stem conversion/upload fan-out of pipeline step 4: any stem
future's exception aborts the collection; otherwise the URL dictionary is
assembled from the returned (name, URL) pairs. -/
def processAllStems (st : StemName → StemEnv) : Except StemName StemUrls :=
  match process_and_upload_stem (st .vocals) "vocals" with
  | .error _ => .error .vocals
  | .ok rv =>
    match process_and_upload_stem (st .bass) "bass" with
    | .error _ => .error .bass
    | .ok rb =>
      match process_and_upload_stem (st .drums) "drums" with
      | .error _ => .error .drums
      | .ok rd =>
        match process_and_upload_stem (st .piano) "piano" with
        | .error _ => .error .piano
        | .ok rp =>
          match process_and_upload_stem (st .other) "other" with
          | .error _ => .error .other
          | .ok ro => .ok ⟨urlOf rv, urlOf rb, urlOf rd, urlOf rp, urlOf ro⟩

/-- The body of `full_song_processing_pipeline`'s try block: download, the
find-audio check, the three-way parallel stage (original upload, whole-track
analytics, spleeter — any raise aborts), the Song insert (a `None` upload
URL fails the `SongCreateDTO` validation, since `song_url` is a required
string), the stem fan-out, the 8-way analytics fan-out, and the Split
insert.  Returns the database state at exit together with the result or the
raised stage. -/
def pipelineBody (env : PipelineEnv) (user_id : ℕ) (db : DB) :
    DB × Except PipelineErr PipeResult :=
  match env.download with
  | .error _ => (db, .error .downloadErr)
  | .ok original_title =>
    if env.audioFound = false then (db, .error .audioNotFound)
    else
      match env.uploadOrig with
      | .error _ => (db, .error .uploadOrigErr)
      | .ok s3_upload_url =>
        match env.analyzeOrig with
        | .error _ => (db, .error .analyticsErr)
        | .ok music_desc =>
          match env.spleeter with
          | .error _ => (db, .error .spleeterErr)
          | .ok _ =>
            match s3_upload_url with
            | none => (db, .error .songUrlMissing)
            | some url =>
              let p := create_song db
                { title := original_title, owner_id := user_id,
                  song_url := url, lyrics := some (Json.obj []),
                  description := some music_desc }
              match processAllStems env.stem with
              | .error s => (p.2, .error (.stemErr s))
              | .ok urls =>
                let data := run_analysis_in_parallel env.stems_output_dir env.analysis
                let q := create_split p.2
                  { song_id := p.1.id,
                    bass_audio_url := urls.bass,
                    vocals_audio_url := urls.vocals,
                    piano_audio_url := urls.piano,
                    other_audio_url := urls.other,
                    drum_audio_url := urls.drums,
                    bass_description := data .bass,
                    vocals_description := data .vocal,
                    piano_description := data .piano,
                    other_description := data .other,
                    drum_description := data .drums,
                    guitar_description := data .guitar,
                    flute_description := data .flute,
                    violin_description := data .violin }
                (q.2, .ok ⟨p.1.id, q.1.id⟩)

/-- `full_song_processing_pipeline`: runs the body inside try/except; any
exception is caught, the session is rolled back if active, and `None` is
returned in place of the ids. -/
def full_song_processing_pipeline (env : PipelineEnv) (user_id : ℕ) (db : DB) :
    DB × Option PipeResult :=
  match pipelineBody env user_id db with
  | (db2, .ok r) => (db2, some r)
  | (db2, .error _) => (if db2.active then rollback db2 else db2, none)

theorem full_of_ok (env : PipelineEnv) (uid : ℕ) (db db2 : DB) (r : PipeResult)
    (h : pipelineBody env uid db = (db2, .ok r)) :
    full_song_processing_pipeline env uid db = (db2, some r) := by
  simp [full_song_processing_pipeline, h]

theorem full_of_err (env : PipelineEnv) (uid : ℕ) (db db2 : DB) (e : PipelineErr)
    (h : pipelineBody env uid db = (db2, .error e)) :
    full_song_processing_pipeline env uid db =
      (if db2.active then rollback db2 else db2, none) := by
  simp [full_song_processing_pipeline, h]

theorem pipelineBody_ok_shape (env : PipelineEnv) (uid : ℕ) (db : DB)
    (r : PipeResult) (h : (pipelineBody env uid db).2 = .ok r) :
    ∃ song split urls,
      processAllStems env.stem = .ok urls ∧
      (pipelineBody env uid db).1.songs = db.songs ++ db.pendingSongs ++ [song] ∧
      (pipelineBody env uid db).1.splits = db.splits ++ db.pendingSplits ++ [split] ∧
      split.song_id = song.id ∧
      song.id = db.nextSongId ∧ split.id = db.nextSplitId ∧
      r = ⟨song.id, split.id⟩ ∧
      (∀ s, split.urlOf s = urls.get s) := by
  obtain ⟨dl, af, uo, ao, sp, dir, stm, ana⟩ := env
  cases dl with
  | error u => simp [pipelineBody] at h
  | ok title =>
    cases af with
    | false => simp [pipelineBody] at h
    | true =>
      cases uo with
      | error u => simp [pipelineBody] at h
      | ok s3u =>
        cases ao with
        | error u => simp [pipelineBody] at h
        | ok mdesc =>
          cases sp with
          | error u => simp [pipelineBody] at h
          | ok _ =>
            cases s3u with
            | none => simp [pipelineBody] at h
            | some url =>
              cases hst : processAllStems stm with
              | error s => simp [pipelineBody, hst] at h
              | ok urls =>
                have hr : r = ⟨db.nextSongId, db.nextSplitId⟩ := by
                  simp [pipelineBody, hst, create_song, create_split] at h
                  exact h.symm
                refine ⟨{ id := db.nextSongId, title := title, song_url := url,
                          lyrics := Json.obj [], description := mdesc,
                          owner_id := uid },
                        { id := db.nextSplitId, song_id := db.nextSongId,
                          bass_audio_url := urls.bass,
                          vocals_audio_url := urls.vocals,
                          piano_audio_url := urls.piano,
                          other_audio_url := urls.other,
                          drum_audio_url := urls.drums,
                          bass_description := run_analysis_in_parallel dir ana .bass,
                          vocals_description := run_analysis_in_parallel dir ana .vocal,
                          piano_description := run_analysis_in_parallel dir ana .piano,
                          other_description := run_analysis_in_parallel dir ana .other,
                          drum_description := run_analysis_in_parallel dir ana .drums,
                          guitar_description := run_analysis_in_parallel dir ana .guitar,
                          flute_description := run_analysis_in_parallel dir ana .flute,
                          violin_description := run_analysis_in_parallel dir ana .violin },
                        urls, rfl, ?_, ?_, rfl, rfl, rfl, hr, ?_⟩
                · simp [pipelineBody, hst, create_song, create_split]
                · simp [pipelineBody, hst, create_song, create_split]
                · intro s
                  cases s <;> simp [SplitRow.urlOf, StemUrls.get]

/-- Classification of the raise site relative to the Song insert. -/
def preInsertErr : PipelineErr → Prop
  | .stemErr _ => False
  | _ => True

theorem pipelineBody_preInsert_db (env : PipelineEnv) (uid : ℕ) (db db2 : DB)
    (e : PipelineErr) (h : pipelineBody env uid db = (db2, .error e))
    (hp : preInsertErr e) : db2 = db := by
  obtain ⟨dl, af, uo, ao, sp, dir, stm, ana⟩ := env
  cases dl with
  | error u => simp [pipelineBody] at h; exact h.1.symm
  | ok title =>
    cases af with
    | false => simp [pipelineBody] at h; exact h.1.symm
    | true =>
      cases uo with
      | error u => simp [pipelineBody] at h; exact h.1.symm
      | ok s3u =>
        cases ao with
        | error u => simp [pipelineBody] at h; exact h.1.symm
        | ok mdesc =>
          cases sp with
          | error u => simp [pipelineBody] at h; exact h.1.symm
          | ok _ =>
            cases s3u with
            | none => simp [pipelineBody] at h; exact h.1.symm
            | some url =>
              cases hst : processAllStems stm with
              | error s =>
                simp [pipelineBody, hst] at h
                rw [← h.2] at hp
                exact absurd hp (by simp [preInsertErr])
              | ok urls => simp [pipelineBody, hst] at h

/-- C1: whenever `full_song_processing_pipeline` succeeds (starting from a
request-scoped session with nothing pending), exactly one Song row and
exactly one Split row are appended, the Split's `song_id` is the new Song's
id, and the returned pair is `{"songs_id": song.id, "splits_id": split.id}`. -/
theorem C1_pipeline_success_rows (env : PipelineEnv) (uid : ℕ) (db : DB)
    (r : PipeResult) (h : (full_song_processing_pipeline env uid db).2 = some r)
    (hp1 : db.pendingSongs = []) (hp2 : db.pendingSplits = []) :
    ∃ song split,
      (full_song_processing_pipeline env uid db).1.songs = db.songs ++ [song] ∧
      (full_song_processing_pipeline env uid db).1.splits = db.splits ++ [split] ∧
      split.song_id = song.id ∧
      r = ⟨song.id, split.id⟩ := by
  rcases hb : pipelineBody env uid db with ⟨db2, res⟩
  cases res with
  | error e =>
    rw [full_of_err env uid db db2 e hb] at h
    simp at h
  | ok a =>
    rw [full_of_ok env uid db db2 a hb] at h
    simp at h
    subst h
    obtain ⟨song, split, urls, _, hsongs, hsplits, hsid, _, _, hr, _⟩ :=
      pipelineBody_ok_shape env uid db a (by rw [hb])
    refine ⟨song, split, ?_, ?_, hsid, hr⟩
    · rw [full_of_ok env uid db db2 a hb]
      rw [hb] at hsongs
      simpa [hp1] using hsongs
    · rw [full_of_ok env uid db db2 a hb]
      rw [hb] at hsplits
      simpa [hp2] using hsplits

/-- An environment in which every external call succeeds. -/
def okEnv : PipelineEnv :=
  { download := .ok "Song Title"
    audioFound := true
    uploadOrig := .ok (some "https://bucket/orig.mp3")
    analyzeOrig := .ok (Json.obj [])
    spleeter := .ok ()
    stems_output_dir := "stems/orig"
    stem := fun _ => ⟨true, false, .ok (some "https://bucket/stem.mp3")⟩
    analysis := fun _ => ⟨true, "", 5, .ok 20, .ok (Json.obj [])⟩ }

/-- An initially empty database with a fresh active session. -/
def emptyDB : DB := ⟨[], [], 1, 1, [], [], true⟩

/-- Closed witness for `C1_pipeline_success_rows`: a concrete all-success
environment starting from an empty database. -/
theorem C1_pipeline_success_rows_witness :
    ∃ song split,
      (full_song_processing_pipeline okEnv 1 emptyDB).1.songs = emptyDB.songs ++ [song] ∧
      (full_song_processing_pipeline okEnv 1 emptyDB).1.splits = emptyDB.splits ++ [split] ∧
      split.song_id = song.id ∧
      (⟨1, 1⟩ : PipeResult) = ⟨song.id, split.id⟩ :=
  C1_pipeline_success_rows okEnv 1 emptyDB ⟨1, 1⟩ rfl rfl rfl

/-- C2: any exception raised inside the pipeline body is caught: the
function returns the failure sentinel `None` (never re-raising) after rolling
back the session if it is active; and when the exception is raised before
the Song insert, the committed `songs` and `splits` tables are exactly what
they were before the run — no row from this run is persisted. -/
theorem C2_pipeline_failure_semantics :
    (∀ (env : PipelineEnv) (uid : ℕ) (db db2 : DB) (e : PipelineErr),
       pipelineBody env uid db = (db2, .error e) →
       full_song_processing_pipeline env uid db =
         ((if db2.active then rollback db2 else db2), none)) ∧
    (∀ (env : PipelineEnv) (uid : ℕ) (db db2 : DB) (e : PipelineErr),
       pipelineBody env uid db = (db2, .error e) → preInsertErr e →
       (full_song_processing_pipeline env uid db).1.songs = db.songs ∧
       (full_song_processing_pipeline env uid db).1.splits = db.splits) := by
  constructor
  · intro env uid db db2 e h
    exact full_of_err env uid db db2 e h
  · intro env uid db db2 e h hp
    have hdb : db2 = db := pipelineBody_preInsert_db env uid db db2 e h hp
    rw [full_of_err env uid db db2 e h, hdb]
    by_cases hA : db.active <;> simp [hA, rollback]

/-- The all-success environment with the download raising instead. -/
def failEnv : PipelineEnv := { okEnv with download := .error () }

/-- Closed witness for `C2_pipeline_failure_semantics`: a failing download
is caught, the active session is rolled back, `None` is returned, and the
committed tables are unchanged. -/
theorem C2_pipeline_failure_semantics_witness :
    full_song_processing_pipeline failEnv 1 emptyDB =
      ((if emptyDB.active then rollback emptyDB else emptyDB), none) ∧
    ((full_song_processing_pipeline failEnv 1 emptyDB).1.songs = emptyDB.songs ∧
     (full_song_processing_pipeline failEnv 1 emptyDB).1.splits = emptyDB.splits) :=
  ⟨C2_pipeline_failure_semantics.1 failEnv 1 emptyDB emptyDB .downloadErr rfl,
   C2_pipeline_failure_semantics.2 failEnv 1 emptyDB emptyDB .downloadErr rfl trivial⟩

theorem process_stem_missing (e : StemEnv) (name : String)
    (h : e.wavExists = false) :
    process_and_upload_stem e name = .ok none := by
  simp [process_and_upload_stem, h]

theorem process_stem_upload_none (e : StemEnv) (name : String)
    (h1 : e.wavExists = true) (h2 : e.convertRaises = false)
    (h3 : e.upload = .ok none) :
    process_and_upload_stem e name = .ok none := by
  simp [process_and_upload_stem, h1, h2, h3]

theorem pipelineBody_ok_of_success (env : PipelineEnv) (uid : ℕ) (db : DB)
    (t u : String) (d : Json) (urls : StemUrls)
    (hd : env.download = .ok t) (ha : env.audioFound = true)
    (hu : env.uploadOrig = .ok (some u)) (han : env.analyzeOrig = .ok d)
    (hs : env.spleeter = .ok ()) (hst : processAllStems env.stem = .ok urls) :
    (pipelineBody env uid db).2 = .ok ⟨db.nextSongId, db.nextSplitId⟩ := by
  simp [pipelineBody, hd, ha, hu, han, hs, hst, create_song, create_split]

theorem processAllStems_of (st : StemName → StemEnv)
    (rv rb rd rp ro : Option (String × String))
    (hv : process_and_upload_stem (st .vocals) "vocals" = .ok rv)
    (hb : process_and_upload_stem (st .bass) "bass" = .ok rb)
    (hdr : process_and_upload_stem (st .drums) "drums" = .ok rd)
    (hp : process_and_upload_stem (st .piano) "piano" = .ok rp)
    (ho : process_and_upload_stem (st .other) "other" = .ok ro) :
    processAllStems st = .ok ⟨urlOf rv, urlOf rb, urlOf rd, urlOf rp, urlOf ro⟩ := by
  simp [processAllStems, hv, hb, hdr, hp, ho]

/-- The success conditions of the pipeline stages other than the per-stem
conversion/upload: the download returns a title, an audio file is found,
the original upload returns a URL, the whole-track analytics and the stem
separation return without raising. -/
def StagesOk (env : PipelineEnv) : Prop :=
  (∃ t, env.download = .ok t) ∧ env.audioFound = true ∧
  (∃ u, env.uploadOrig = .ok (some u)) ∧ (∃ d, env.analyzeOrig = .ok d) ∧
  env.spleeter = .ok ()

theorem pipeline_completes_with_null_stem_url (env : PipelineEnv) (uid : ℕ)
    (db : DB) (s : StemName)
    (hmiss : process_and_upload_stem (env.stem s) (stemNameStr s) = .ok none)
    (hall : ∀ s', ∃ rr, process_and_upload_stem (env.stem s') (stemNameStr s') = .ok rr)
    (hok : StagesOk env) (hp2 : db.pendingSplits = []) :
    ∃ res split,
      (full_song_processing_pipeline env uid db).2 = some res ∧
      (full_song_processing_pipeline env uid db).1.splits = db.splits ++ [split] ∧
      split.urlOf s = none := by
  obtain ⟨⟨t, hd⟩, ha, ⟨u, hu⟩, ⟨d, han⟩, hsp⟩ := hok
  obtain ⟨rv, hv⟩ := hall .vocals
  obtain ⟨rb, hb⟩ := hall .bass
  obtain ⟨rd, hdr⟩ := hall .drums
  obtain ⟨rp, hp⟩ := hall .piano
  obtain ⟨ro, ho⟩ := hall .other
  simp only [stemNameStr] at hv hb hdr hp ho
  have hst := processAllStems_of env.stem rv rb rd rp ro hv hb hdr hp ho
  have hbody := pipelineBody_ok_of_success env uid db t u d _ hd ha hu han hsp hst
  obtain ⟨song, split, urls, hst', _, hsplits, _, _, _, _, hurl⟩ :=
    pipelineBody_ok_shape env uid db _ hbody
  rcases hpair : pipelineBody env uid db with ⟨db2, res2⟩
  have hres2 : res2 = .ok ⟨db.nextSongId, db.nextSplitId⟩ := by
    have := hbody; rw [hpair] at this; exact this
  subst hres2
  refine ⟨⟨db.nextSongId, db.nextSplitId⟩, split, ?_, ?_, ?_⟩
  · rw [full_of_ok env uid db db2 _ hpair]
  · rw [full_of_ok env uid db db2 _ hpair]
    rw [hpair] at hsplits
    simpa [hp2] using hsplits
  · rw [hst] at hst'
    have hurls : urls = ⟨urlOf rv, urlOf rb, urlOf rd, urlOf rp, urlOf ro⟩ := by
      injection hst' with h'
      exact h'.symm
    rw [hurl s, hurls]
    cases s <;>
      simp only [stemNameStr] at hmiss <;>
      [rw [hv] at hmiss; rw [hb] at hmiss; rw [hdr] at hmiss;
       rw [hp] at hmiss; rw [ho] at hmiss] <;>
      injection hmiss with h2 <;>
      simp [StemUrls.get, urlOf, ← h2]

/-- C3: a stem whose separated WAV file is absent makes
`process_and_upload_stem` return `None` without raising (first conjunct);
and provided the other stages succeed and no other stem future raises, the
pipeline as a whole still completes successfully, with the created Split
row's URL field for the missing stem null (second conjunct). -/
theorem C3_missing_stem_tolerated :
    (∀ (e : StemEnv) (name : String), e.wavExists = false →
       process_and_upload_stem e name = .ok none) ∧
    (∀ (env : PipelineEnv) (uid : ℕ) (db : DB) (s : StemName),
       (env.stem s).wavExists = false →
       (∀ s', ∃ rr, process_and_upload_stem (env.stem s') (stemNameStr s') = .ok rr) →
       StagesOk env → db.pendingSplits = [] →
       ∃ res split,
         (full_song_processing_pipeline env uid db).2 = some res ∧
         (full_song_processing_pipeline env uid db).1.splits = db.splits ++ [split] ∧
         split.urlOf s = none) := by
  refine ⟨process_stem_missing, ?_⟩
  intro env uid db s hmiss hall hok hp2
  exact pipeline_completes_with_null_stem_url env uid db s
    (process_stem_missing _ _ hmiss) hall hok hp2

/-- The all-success environment with the piano stem's WAV file absent. -/
def missingPianoEnv : PipelineEnv :=
  { okEnv with
    stem := fun s =>
      if s = .piano then ⟨false, false, .ok none⟩
      else ⟨true, false, .ok (some "https://bucket/stem.mp3")⟩ }

/-- Closed witness for `C3_missing_stem_tolerated` with the piano WAV
absent and everything else succeeding. -/
theorem C3_missing_stem_tolerated_witness :
    process_and_upload_stem ⟨false, false, .ok none⟩ "piano" = .ok none ∧
    ∃ res split,
      (full_song_processing_pipeline missingPianoEnv 1 emptyDB).2 = some res ∧
      (full_song_processing_pipeline missingPianoEnv 1 emptyDB).1.splits =
        emptyDB.splits ++ [split] ∧
      split.urlOf StemName.piano = none :=
  ⟨C3_missing_stem_tolerated.1 ⟨false, false, .ok none⟩ "piano" rfl,
   C3_missing_stem_tolerated.2 missingPianoEnv 1 emptyDB .piano rfl
     (fun s' => by cases s' <;> exact ⟨_, rfl⟩)
     ⟨⟨_, rfl⟩, rfl, ⟨_, rfl⟩, ⟨_, rfl⟩, rfl⟩ rfl⟩

/-- C10: a stem whose WAV exists and converts but whose S3 upload returns
no URL makes `process_and_upload_stem` return `None` rather than raising —
the same interface value as for a missing WAV (first and second conjuncts);
under the same side conditions as C3, the pipeline completes and records a
null URL for that stem (third conjunct). -/
theorem C10_upload_failure_like_missing :
    (∀ (e : StemEnv) (name : String),
       e.wavExists = true → e.convertRaises = false → e.upload = .ok none →
       process_and_upload_stem e name = .ok none) ∧
    (∀ (e eMissing : StemEnv) (name : String),
       e.wavExists = true → e.convertRaises = false → e.upload = .ok none →
       eMissing.wavExists = false →
       process_and_upload_stem e name = process_and_upload_stem eMissing name) ∧
    (∀ (env : PipelineEnv) (uid : ℕ) (db : DB) (s : StemName),
       (env.stem s).wavExists = true → (env.stem s).convertRaises = false →
       (env.stem s).upload = .ok none →
       (∀ s', ∃ rr, process_and_upload_stem (env.stem s') (stemNameStr s') = .ok rr) →
       StagesOk env → db.pendingSplits = [] →
       ∃ res split,
         (full_song_processing_pipeline env uid db).2 = some res ∧
         (full_song_processing_pipeline env uid db).1.splits = db.splits ++ [split] ∧
         split.urlOf s = none) := by
  refine ⟨process_stem_upload_none, ?_, ?_⟩
  · intro e eMissing name h1 h2 h3 h4
    rw [process_stem_upload_none e name h1 h2 h3, process_stem_missing eMissing name h4]
  · intro env uid db s h1 h2 h3 hall hok hp2
    exact pipeline_completes_with_null_stem_url env uid db s
      (process_stem_upload_none _ _ h1 h2 h3) hall hok hp2

/-- The all-success environment with the bass upload returning no URL. -/
def bassUploadFailEnv : PipelineEnv :=
  { okEnv with
    stem := fun s =>
      if s = .bass then ⟨true, false, .ok none⟩
      else ⟨true, false, .ok (some "https://bucket/stem.mp3")⟩ }

/-- Closed witness for `C10_upload_failure_like_missing` with the bass
upload failing and everything else succeeding. -/
theorem C10_upload_failure_like_missing_witness :
    process_and_upload_stem ⟨true, false, .ok none⟩ "bass" = .ok none ∧
    process_and_upload_stem ⟨true, false, .ok none⟩ "bass" =
      process_and_upload_stem ⟨false, true, .ok (some "u")⟩ "bass" ∧
    ∃ res split,
      (full_song_processing_pipeline bassUploadFailEnv 1 emptyDB).2 = some res ∧
      (full_song_processing_pipeline bassUploadFailEnv 1 emptyDB).1.splits =
        emptyDB.splits ++ [split] ∧
      split.urlOf StemName.bass = none :=
  ⟨C10_upload_failure_like_missing.1 ⟨true, false, .ok none⟩ "bass" rfl rfl rfl,
   C10_upload_failure_like_missing.2.1 ⟨true, false, .ok none⟩
     ⟨false, true, .ok (some "u")⟩ "bass" rfl rfl rfl rfl,
   C10_upload_failure_like_missing.2.2 bassUploadFailEnv 1 emptyDB .bass rfl rfl rfl
     (fun s' => by cases s' <;> exact ⟨_, rfl⟩)
     ⟨⟨_, rfl⟩, rfl, ⟨_, rfl⟩, ⟨_, rfl⟩, rfl⟩ rfl⟩

/-! ### Lyrics rewrite endpoint (app/api/routes/process.py, lines 128-153)

The external text-generation call `rewrite_lyrics_with_timestamps` is
modelled as a function argument returning the rewritten LRC string or
raising.  Note the handler's source performs no database write at all: it
reads the stored lyrics blob, calls the rewriter, and returns the result in
the response body.
-/

/-- `dict.get(key)` on a JSON object (`none` when absent or not a dict). -/
def Json.get : Json → String → Option Json
  | .obj kvs, k => (kvs.find? (fun kv => kv.1 == k)).map Prod.snd
  | _, _ => none

/-- `dict.get(key, default)` on a JSON object. -/
def Json.getD (j : Json) (k : String) (dflt : Json) : Json := (j.get k).getD dflt

/-- `crud.get_lyrics_by_song_id`: the lyrics column of the first `songs`
row whose `id` equals `song_id`, if any. -/
def get_lyrics_by_song_id (db : DB) (song_id : ℕ) : Option Json :=
  (db.songs.find? (fun s => s.id == song_id)).map SongRow.lyrics

/-- The `POST /process/rewrite-lyrics/{song_id}` handler
`create_lyrics_rewrite`: 404 when the song is absent; otherwise reads
duration/language/original_lrc from the stored lyrics blob (with the
source's defaults), calls the rewriter (whose exceptions propagate to the
framework, surfacing as a 500), and returns `{"lyrics": new_lyrics}` — the
database state is returned as the handler leaves it. -/
def create_lyrics_rewrite
    (rewriter : Json → Json → Json → String → Except Unit String)
    (db : DB) (song_id : ℕ) (prompt : String) : Except ℕ Json × DB :=
  match get_lyrics_by_song_id db song_id with
  | none => (.error 404, db)
  | some lyr =>
    let duration := lyr.getD "duration" (Json.num 0)
    let language := lyr.getD "language" (Json.str "en")
    let lyrics := lyr.getD "original_lrc" (Json.str "")
    match rewriter lyrics language duration prompt with
    | .error _ => (.error 500, db)
    | .ok new_lyrics => (.ok (Json.obj [("lyrics", Json.str new_lyrics)]), db)

/-- A one-song database whose stored lyrics carry an `original_lrc`. -/
def rewriteExDB : DB :=
  { songs := [{ id := 1, title := "T", song_url := "https://bucket/t.mp3",
                lyrics := Json.obj [("language", Json.str "en"),
                                    ("duration", Json.num 10),
                                    ("original_lrc", Json.str "[00:01.00]old line")],
                description := Json.null, owner_id := 1 }]
    splits := []
    nextSongId := 2
    nextSplitId := 1
    pendingSongs := []
    pendingSplits := []
    active := true }

/-- A rewriter returning a fixed new LRC string. -/
def exRewriter : Json → Json → Json → String → Except Unit String :=
  fun _ _ _ _ => .ok "[00:01.00]new line"

/-- C7 counterexample: the claim fails on the code.  Calling the
rewrite-lyrics handler on a stored song returns the rewritten lyrics in the
response body, but performs no update: the database is returned exactly as
it was, and the persisted lyrics blob still carries the old LRC text, not
the rewritten one. -/
theorem C7_rewrite_counterexample :
    (create_lyrics_rewrite exRewriter rewriteExDB 1 "make it happy").1 =
      .ok (Json.obj [("lyrics", Json.str "[00:01.00]new line")]) ∧
    (create_lyrics_rewrite exRewriter rewriteExDB 1 "make it happy").2 = rewriteExDB ∧
    ((get_lyrics_by_song_id
        (create_lyrics_rewrite exRewriter rewriteExDB 1 "make it happy").2 1).map
      (fun lyr => lyr.getD "original_lrc" (Json.str ""))) =
        some (Json.str "[00:01.00]old line") ∧
    "[00:01.00]old line" ≠ "[00:01.00]new line" := by
  refine ⟨rfl, rfl, rfl, by decide⟩

/-- C7 (amended): the lyrics-rewrite endpoint never mutates the database —
Song rows (lyrics included) and Split rows are left exactly as they were;
on success it only returns `{"lyrics": rewritten}` in the response body,
the rewrite being computed from the stored blob's original_lrc, language
and duration; a missing song yields HTTP 404. -/
theorem C7_rewrite_amended :
    (∀ (rewriter : Json → Json → Json → String → Except Unit String)
       (db : DB) (song_id : ℕ) (prompt : String),
       (create_lyrics_rewrite rewriter db song_id prompt).2 = db) ∧
    (∀ (rewriter : Json → Json → Json → String → Except Unit String)
       (db : DB) (song_id : ℕ) (prompt : String) (lyr : Json) (nl : String),
       get_lyrics_by_song_id db song_id = some lyr →
       rewriter (lyr.getD "original_lrc" (Json.str ""))
         (lyr.getD "language" (Json.str "en"))
         (lyr.getD "duration" (Json.num 0)) prompt = .ok nl →
       (create_lyrics_rewrite rewriter db song_id prompt).1 =
         .ok (Json.obj [("lyrics", Json.str nl)])) ∧
    (∀ (rewriter : Json → Json → Json → String → Except Unit String)
       (db : DB) (song_id : ℕ) (prompt : String),
       get_lyrics_by_song_id db song_id = none →
       (create_lyrics_rewrite rewriter db song_id prompt).1 = .error 404) := by
  refine ⟨?_, ?_, ?_⟩
  · intro rewriter db song_id prompt
    rcases h : get_lyrics_by_song_id db song_id with _ | lyr
    · simp [create_lyrics_rewrite, h]
    · rcases hr : rewriter (lyr.getD "original_lrc" (Json.str ""))
        (lyr.getD "language" (Json.str "en"))
        (lyr.getD "duration" (Json.num 0)) prompt with u | nl <;>
        simp [create_lyrics_rewrite, h, hr]
  · intro rewriter db song_id prompt lyr nl h hr
    simp [create_lyrics_rewrite, h, hr]
  · intro rewriter db song_id prompt h
    simp [create_lyrics_rewrite, h]

/-- Closed witness for `C7_rewrite_amended` on the concrete example
database. -/
theorem C7_rewrite_amended_witness :
    (create_lyrics_rewrite exRewriter rewriteExDB 1 "p").2 = rewriteExDB ∧
    (create_lyrics_rewrite exRewriter rewriteExDB 1 "p").1 =
      .ok (Json.obj [("lyrics", Json.str "[00:01.00]new line")]) ∧
    (create_lyrics_rewrite exRewriter rewriteExDB 5 "p").1 = .error 404 :=
  ⟨C7_rewrite_amended.1 exRewriter rewriteExDB 1 "p",
   C7_rewrite_amended.2.1 exRewriter rewriteExDB 1 "p" _ _ rfl rfl,
   C7_rewrite_amended.2.2 exRewriter rewriteExDB 5 "p" rfl⟩

/-! ### Per-instrument split analytics endpoints
(app/services/crud.py lines 88-92, app/api/routes/get_analytics.py lines 26-36)

`get_split_bass_info_by_song_id` filters on `models.Split.id == song_id`
(the Split primary key), not on `models.Split.song_id` — unlike the
correctly-filtering `get_split_by_song_id` directly above it isn't the
foreign key that is compared.  Both are embedded below so the divergence
can be exhibited.
-/

/-- `crud.get_split_by_song_id` (lines 84-86): the first Split whose
`song_id` column equals the argument. -/
def get_split_by_song_id (db : DB) (song_id : ℕ) : Option SplitRow :=
  db.splits.find? (fun s => s.song_id == song_id)

/-- `crud.get_split_bass_info_by_song_id` (lines 88-92): selects
(bass_audio_url, bass_description) of the first Split whose **`id`** column
equals the argument — the filter the source actually writes is
`models.Split.id == song_id`. -/
def get_split_bass_info_by_song_id (db : DB) (song_id : ℕ) :
    Option (Option String × Json) :=
  (db.splits.find? (fun s => s.id == song_id)).map
    (fun s => (s.bass_audio_url, s.bass_description))

/-- The `GET /analytics/splits/bass/{song_id}` handler: 404 when the crud
lookup returns nothing, else the (url, description) pair as a BassInfoDTO. -/
def read_splits_for_song_bass (db : DB) (song_id : ℕ) :
    Except ℕ (Option String × Json) :=
  match get_split_bass_info_by_song_id db song_id with
  | none => .error 404
  | some info => .ok info

/-- A Split row with only the bass URL populated. -/
def mkBassSplit (id song_id : ℕ) (bass : Option String) : SplitRow :=
  { id := id, song_id := song_id,
    bass_audio_url := bass, vocals_audio_url := none, piano_audio_url := none,
    other_audio_url := none, drum_audio_url := none,
    bass_description := Json.null, vocals_description := Json.null,
    piano_description := Json.null, other_description := Json.null,
    drum_description := Json.null, guitar_description := Json.null,
    flute_description := Json.null, violin_description := Json.null }

/-- Two songs whose Split primary keys differ from their `song_id`s. -/
def crossedDB : DB :=
  { songs := [], splits := [mkBassSplit 1 2 (some "https://a"),
                            mkBassSplit 2 1 (some "https://b")],
    nextSongId := 3, nextSplitId := 3,
    pendingSongs := [], pendingSplits := [], active := true }

/-- One Split whose primary key (1) differs from its `song_id` (3). -/
def orphanKeyDB : DB :=
  { songs := [], splits := [mkBassSplit 1 3 (some "https://c")],
    nextSongId := 2, nextSplitId := 2,
    pendingSongs := [], pendingSplits := [], active := true }

/-- C8 evaluated at the failing input: querying song id 2, the Split whose
`song_id` is 2 carries bass URL "https://a", but the endpoint returns
"https://b" — the row with primary key 2 (and `song_id` 1).  Querying song
id 3 on a database that does contain a Split with `song_id = 3`, the
endpoint answers 404 because no Split has primary key 3.  The endpoint thus
filters by `Split.id`, not by `Split.song_id` as the spec and the crud
function's own name state. -/
theorem C8_bass_endpoint_wrong_filter :
    ((get_split_by_song_id crossedDB 2).map SplitRow.bass_audio_url =
       some (some "https://a")) ∧
    read_splits_for_song_bass crossedDB 2 = .ok (some "https://b", Json.null) ∧
    (get_split_by_song_id orphanKeyDB 3).isSome = true ∧
    read_splits_for_song_bass orphanKeyDB 3 = .error 404 := by
  refine ⟨rfl, rfl, rfl, rfl⟩

/-! ### LRC conversion (app/utils/seg_to_lrc.py)

Start times are exact rationals (Python floats are binary rationals).  A
number formatted with two decimals is modelled by rounding to the nearest
centisecond; lines are Python strings, and `lrc_lines.sort()` is a stable
ascending sort on them.
-/

/-- One transcription segment as consumed by `convert_lyrics_to_lrc`: the
optional `start` value and the `text` (the `end` key is never read). -/
structure Segment where
  start : Option ℚ
  text : String

/-- The character for the decimal digit `d` (`d < 10`). -/
def digitChar (d : ℕ) : Char := Char.ofNat (48 + d)

/-- Decimal digits of `n`, most significant first (fuel-based worker). -/
def natDigitsGo : ℕ → ℕ → List Char → List Char
  | 0, _, acc => acc
  | _ + 1, 0, acc => acc
  | fuel + 1, n, acc => natDigitsGo fuel (n / 10) (digitChar (n % 10) :: acc)

/-- Decimal rendering of a natural number. -/
def natDigits (n : ℕ) : List Char :=
  if n = 0 then ['0'] else natDigitsGo (n + 1) n []

/-- Python `f"{m:02d}"`: decimal rendering zero-padded to width 2. -/
def fmt02 (m : ℤ) : List Char :=
  if m < 0 then '-' :: natDigits m.natAbs
  else if m < 10 then '0' :: natDigits m.toNat
  else natDigits m.toNat

/-- Rendering of a two-decimal fixed-point value given the integer count of
hundredths, zero-padding the whole part to width 2 (so that the full
rendering has width at least 5, as `f"{x:05.2f}"` does for `x < 100`). -/
def fmtSecOfInt (c : ℤ) : List Char :=
  if c < 0 then
    '-' :: (natDigits (c.natAbs / 100) ++
      '.' :: [digitChar (c.natAbs / 10 % 10), digitChar (c.natAbs % 10)])
  else
    (if c / 100 < 10 then '0' :: natDigits (c / 100).toNat
     else natDigits (c / 100).toNat) ++
      '.' :: [digitChar ((c % 100).toNat / 10), digitChar ((c % 100).toNat % 10)]

/-- Python `f"{sec:05.2f}"`: the value rounded to two decimals, rendered
zero-padded to width 5. -/
def fmtSec (sec : ℚ) : List Char := fmtSecOfInt (round (100 * sec))

/-- `format_timestamp(seconds)`: `minutes = int(seconds // 60)`,
`sec = seconds % 60`, rendered as `[{minutes:02d}:{sec:05.2f}]`. -/
def format_timestamp (seconds : ℚ) : List Char :=
  let minutes : ℤ := ⌊seconds / 60⌋
  let sec : ℚ := seconds - 60 * minutes
  '[' :: (fmt02 minutes ++ ':' :: fmtSec sec) ++ [']']

/-- Python `str.strip()`: drop leading and trailing whitespace. -/
def pyStrip (s : List Char) : List Char :=
  (((s.dropWhile Char.isWhitespace).reverse).dropWhile Char.isWhitespace).reverse

/-- `text.strip().replace('"', '').replace('\n', ' ')`. -/
def cleanText (s : String) : List Char :=
  ((pyStrip s.toList).filter (fun ch => ch ≠ '"')).map
    (fun ch => if ch = '\n' then ' ' else ch)

/-- One LRC line: the timestamp prefix followed by the cleaned text. -/
def lrcLine (start : ℚ) (text : String) : String :=
  String.mk (format_timestamp start ++ cleanText text)

/-- Python string comparison (`s1 <= s2`): lexicographic by code point. -/
def charListLe : List Char → List Char → Bool
  | [], _ => true
  | _ :: _, [] => false
  | a :: as, b :: bs => if a < b then true else if b < a then false else charListLe as bs

/-- The order `lrc_lines.sort()` sorts by. -/
def pyStrLe (s1 s2 : String) : Prop := charListLe s1.toList s2.toList = true

instance (s1 s2 : String) : Decidable (pyStrLe s1 s2) := by
  unfold pyStrLe
  infer_instance

/-- `convert_lyrics_to_lrc`: segments without a start value are skipped;
each remaining segment becomes one timestamped line; the lines are sorted
as Python strings (stable ascending sort — `lrc_lines.sort()`); the source
finally joins them with newlines, which preserves the line list. -/
def convert_lyrics_to_lrc (segments : List Segment) : List String :=
  List.insertionSort pyStrLe
    (segments.filterMap (fun item => item.start.map (fun s => lrcLine s item.text)))

/-- Digit value of a character. -/
def charDigit (ch : Char) : ℕ := ch.toNat - 48

/-- The centisecond value encoded in a line's leading `[mm:ss.cc]`
timestamp (the layout produced for start times below 100 minutes). -/
def decodeCenti (line : String) : ℕ :=
  let l := line.toList
  6000 * (10 * charDigit (l.getD 1 '0') + charDigit (l.getD 2 '0')) +
    100 * (10 * charDigit (l.getD 4 '0') + charDigit (l.getD 5 '0')) +
    (10 * charDigit (l.getD 7 '0') + charDigit (l.getD 8 '0'))

/-- The three-segment counterexample input: starts of 100 minutes and
59:54, and one segment with no start. -/
def segsCE : List Segment :=
  [⟨some 6000, "a"⟩, ⟨some 3594, "b"⟩, ⟨Option.none, "c"⟩]

theorem format_timestamp_6000 : format_timestamp 6000 = "[100:00.00]".toList := by
  have hfloor : (⌊(6000 : ℚ) / 60⌋ : ℤ) = 100 := by norm_num
  simp only [format_timestamp, hfloor]
  have hround : round ((100 : ℚ) * ((6000 : ℚ) - 60 * ((100 : ℤ) : ℚ))) = 0 := by
    norm_num [round_eq]
  simp only [fmtSec, hround]
  rfl

theorem format_timestamp_3594 : format_timestamp 3594 = "[59:54.00]".toList := by
  have hfloor : (⌊(3594 : ℚ) / 60⌋ : ℤ) = 59 := by norm_num
  simp only [format_timestamp, hfloor]
  have hround : round ((100 : ℚ) * ((3594 : ℚ) - 60 * ((59 : ℤ) : ℚ))) = 5400 := by
    norm_num [round_eq]
  simp only [fmtSec, hround]
  rfl

/-- C9 counterexample: the claim fails on the code.  A segment without a
start is skipped (2 output lines from 3 input segments), and for a start of
100 minutes (6000 s) the rendered timestamp `[100:00.00]` sorts
lexicographically before `[59:54.00]` (3594 s), so the output lines appear
in strictly decreasing start-time order. -/
theorem C9_lrc_counterexample :
    (convert_lyrics_to_lrc segsCE).length = 2 ∧
    segsCE.length = 3 ∧
    convert_lyrics_to_lrc segsCE = [lrcLine 6000 "a", lrcLine 3594 "b"] ∧
    lrcLine 6000 "a" = "[100:00.00]a" ∧ lrcLine 3594 "b" = "[59:54.00]b" ∧
    (6000 : ℚ) > 3594 := by
  have h1 : lrcLine 6000 "a" = "[100:00.00]a" := by
    simp only [lrcLine, format_timestamp_6000]
    rfl
  have h2 : lrcLine 3594 "b" = "[59:54.00]b" := by
    simp only [lrcLine, format_timestamp_3594]
    rfl
  have hconv : convert_lyrics_to_lrc segsCE = [lrcLine 6000 "a", lrcLine 3594 "b"] := by
    show List.insertionSort pyStrLe [lrcLine 6000 "a", lrcLine 3594 "b"] =
      [lrcLine 6000 "a", lrcLine 3594 "b"]
    rw [h1, h2]
    decide
  refine ⟨?_, rfl, hconv, h1, h2, by norm_num⟩
  rw [hconv]
  rfl

/-- The character layout `[mm:ss.cc]` of a rendered timestamp whose minute
count is `m < 100` and whose rounded second count is `sc` hundredths. -/
def tsChars (m sc : ℕ) : List Char :=
  ['[', digitChar (m / 10), digitChar (m % 10), ':',
   digitChar (sc / 100 / 10), digitChar (sc / 100 % 10), '.',
   digitChar (sc % 100 / 10), digitChar (sc % 100 % 10), ']']

theorem digitChar_lt_digitChar :
    ∀ a : ℕ, a < 10 → ∀ b : ℕ, b < 10 → a < b → digitChar a < digitChar b := by
  decide

theorem charListLe_cons_eq (a : Char) (l1 l2 : List Char) :
    charListLe (a :: l1) (a :: l2) = charListLe l1 l2 := by
  simp [charListLe, lt_irrefl]

theorem charListLe_cons_lt {a b : Char} (h : b < a) (l1 l2 : List Char) :
    charListLe (a :: l1) (b :: l2) = false := by
  simp [charListLe, if_neg (asymm h), if_pos h]

theorem twoDigit_le_false {x y : ℕ} (hx : x < 100) (hy : y < 100) (h : y < x)
    (t1 t2 : List Char) :
    charListLe (digitChar (x / 10) :: digitChar (x % 10) :: t1)
      (digitChar (y / 10) :: digitChar (y % 10) :: t2) = false := by
  rcases Nat.lt_or_ge (y / 10) (x / 10) with h1 | h1
  · exact charListLe_cons_lt
      (digitChar_lt_digitChar _ (by omega) _ (by omega) h1) _ _
  · have hdiv : x / 10 = y / 10 := by omega
    rw [hdiv, charListLe_cons_eq]
    exact charListLe_cons_lt
      (digitChar_lt_digitChar _ (by omega) _ (by omega) (by omega)) _ _

theorem tsChars_le_false {m1 sc1 m2 sc2 : ℕ}
    (hm1 : m1 < 100) (hm2 : m2 < 100) (hsc1 : sc1 ≤ 6000) (hsc2 : sc2 ≤ 6000)
    (h : 6000 * m2 + sc2 < 6000 * m1 + sc1) (t1 t2 : List Char) :
    charListLe (tsChars m1 sc1 ++ t1) (tsChars m2 sc2 ++ t2) = false := by
  have hcase : m2 < m1 ∨ (m1 = m2 ∧ sc2 < sc1) := by omega
  simp only [tsChars, List.cons_append, List.nil_append]
  rw [charListLe_cons_eq]
  rcases hcase with h1 | ⟨heq, h2⟩
  · exact twoDigit_le_false hm1 hm2 h1 _ _
  · subst heq
    rw [charListLe_cons_eq, charListLe_cons_eq, charListLe_cons_eq]
    rcases Nat.lt_or_ge (sc2 / 100) (sc1 / 100) with h3 | h3
    · exact twoDigit_le_false (by omega) (by omega) h3 _ _
    · have hdiv : sc1 / 100 = sc2 / 100 := by omega
      rw [hdiv, charListLe_cons_eq, charListLe_cons_eq, charListLe_cons_eq]
      exact twoDigit_le_false (by omega) (by omega) (by omega) _ _

theorem fmt02_of_lt_100 :
    ∀ m : ℕ, m < 100 → fmt02 (m : ℤ) = [digitChar (m / 10), digitChar (m % 10)] := by
  decide

theorem natDigits_lt_10 : ∀ n : ℕ, n < 10 → natDigits n = [digitChar n] := by
  decide

theorem natDigits_lt_100 :
    ∀ n : ℕ, n < 100 → 10 ≤ n →
      natDigits n = [digitChar (n / 10), digitChar (n % 10)] := by
  decide

theorem fmtSecOfInt_of_lt_6001 (sc : ℕ) (h : sc < 6001) :
    fmtSecOfInt (sc : ℤ) =
      [digitChar (sc / 100 / 10), digitChar (sc / 100 % 10), '.',
       digitChar (sc % 100 / 10), digitChar (sc % 100 % 10)] := by
  have h1 : ¬ ((sc : ℤ) < 0) := by omega
  have h2 : ((sc : ℤ) / 100).toNat = sc / 100 := by omega
  have h3 : ((sc : ℤ) % 100).toNat = sc % 100 := by omega
  simp only [fmtSecOfInt, if_neg h1, h3]
  by_cases h4 : sc / 100 < 10
  · rw [if_pos (show (sc : ℤ) / 100 < 10 by omega), h2, natDigits_lt_10 _ h4]
    have h5 : sc / 100 / 10 = 0 := by omega
    have h6 : sc / 100 % 10 = sc / 100 := by omega
    rw [h5, h6]
    rfl
  · rw [if_neg (show ¬ (sc : ℤ) / 100 < 10 by omega), h2,
      natDigits_lt_100 _ (by omega) (by omega)]
    rfl

/-- For starts in `[0, 6000)` the rendered timestamp has the `[mm:ss.cc]`
layout, with the minute count below 100 and the rounded centisecond count
of the second part at most 6000. -/
theorem format_timestamp_tsChars (s : ℚ) (h0 : 0 ≤ s) (h1 : s < 6000) :
    format_timestamp s =
      tsChars (⌊s / 60⌋).toNat (round (100 * (s - 60 * ⌊s / 60⌋))).toNat ∧
    (⌊s / 60⌋).toNat < 100 ∧
    (round (100 * (s - 60 * ⌊s / 60⌋))).toNat ≤ 6000 := by
  have hm0 : (0 : ℤ) ≤ ⌊s / 60⌋ := Int.floor_nonneg.mpr (by positivity)
  have hm1 : ⌊s / 60⌋ < 100 := by
    apply Int.floor_lt.mpr
    rw [div_lt_iff (by norm_num : (0 : ℚ) < 60)]
    push_cast
    linarith
  have hfle : ((⌊s / 60⌋ : ℤ) : ℚ) ≤ s / 60 := Int.floor_le (s / 60)
  have hflt : s / 60 < (⌊s / 60⌋ : ℤ) + 1 := Int.lt_floor_add_one (s / 60)
  have h60 : (60 : ℚ) * (s / 60) = s := by field_simp
  have hsec0 : 0 ≤ s - 60 * (⌊s / 60⌋ : ℤ) := by nlinarith
  have hsec1 : s - 60 * (⌊s / 60⌋ : ℤ) < 60 := by nlinarith
  have hc0 : (0 : ℤ) ≤ round (100 * (s - 60 * ⌊s / 60⌋)) := by
    rw [round_eq]
    apply Int.floor_nonneg.mpr
    nlinarith
  have hc1 : round (100 * (s - 60 * ⌊s / 60⌋)) ≤ 6000 := by
    rw [round_eq]
    have : ⌊100 * (s - 60 * (⌊s / 60⌋ : ℤ)) + 1 / 2⌋ < 6001 := by
      apply Int.floor_lt.mpr
      push_cast
      nlinarith
    omega
  set m : ℕ := (⌊s / 60⌋).toNat with hmdef
  set sc : ℕ := (round (100 * (s - 60 * ⌊s / 60⌋))).toNat with hscdef
  have hmcast : (⌊s / 60⌋ : ℤ) = (m : ℤ) := (Int.toNat_of_nonneg hm0).symm
  have hsccast : round (100 * (s - 60 * ⌊s / 60⌋)) = (sc : ℤ) :=
    (Int.toNat_of_nonneg hc0).symm
  have hmlt : m < 100 := by omega
  have hscle : sc ≤ 6000 := by omega
  refine ⟨?_, hmlt, hscle⟩
  show '[' :: (fmt02 ⌊s / 60⌋ ++ ':' :: fmtSec (s - 60 * ⌊s / 60⌋)) ++ [']'] =
    tsChars m sc
  rw [fmtSec, hsccast, hmcast, fmt02_of_lt_100 m hmlt,
    fmtSecOfInt_of_lt_6001 sc (by omega)]
  simp [tsChars]

theorem charDigit_digitChar : ∀ d : ℕ, d < 10 → charDigit (digitChar d) = d := by
  decide

/-- Decoding the rendered `[mm:ss.cc]` prefix recovers `6000 * m + sc`. -/
theorem decodeCenti_tsChars (m sc : ℕ) (hm : m < 100) (hsc : sc ≤ 6000)
    (t : List Char) :
    decodeCenti (String.mk (tsChars m sc ++ t)) = 6000 * m + sc := by
  simp only [decodeCenti,
    show ∀ l : List Char, (String.mk l).toList = l from fun _ => rfl,
    tsChars, List.cons_append, List.getD_cons_succ, List.getD_cons_zero]
  rw [charDigit_digitChar _ (by omega), charDigit_digitChar _ (by omega),
    charDigit_digitChar _ (by omega), charDigit_digitChar _ (by omega),
    charDigit_digitChar _ (by omega), charDigit_digitChar _ (by omega)]
  omega

theorem charListLe_total :
    ∀ l1 l2 : List Char, charListLe l1 l2 = true ∨ charListLe l2 l1 = true
  | [], _ => Or.inl rfl
  | _ :: _, [] => Or.inr rfl
  | a :: as, b :: bs => by
    rcases lt_trichotomy a b with h | h | h
    · left; simp [charListLe, h]
    · subst h
      rcases charListLe_total as bs with h2 | h2
      · left; rwa [charListLe_cons_eq]
      · right; rwa [charListLe_cons_eq]
    · right; simp [charListLe, h]

theorem charListLe_trans :
    ∀ l1 l2 l3 : List Char,
      charListLe l1 l2 = true → charListLe l2 l3 = true → charListLe l1 l3 = true
  | [], _, _, _, _ => rfl
  | _ :: _, [], _, h12, _ => by simp [charListLe] at h12
  | _ :: _, _ :: _, [], _, h23 => by simp [charListLe] at h23
  | a :: as, b :: bs, c :: cs, h12, h23 => by
    rcases lt_trichotomy a b with hab | hab | hab
    · rcases lt_trichotomy b c with hbc | hbc | hbc
      · simp [charListLe, lt_trans hab hbc]
      · subst hbc; simp [charListLe, hab]
      · rw [charListLe_cons_lt hbc] at h23; exact absurd h23 (by simp)
    · subst hab
      rcases lt_trichotomy a c with hac | hac | hac
      · simp [charListLe, hac]
      · subst hac
        rw [charListLe_cons_eq] at h12 h23 ⊢
        exact charListLe_trans as bs cs h12 h23
      · rw [charListLe_cons_lt hac] at h23; exact absurd h23 (by simp)
    · rw [charListLe_cons_lt hab] at h12; exact absurd h12 (by simp)

theorem pairwise_imp_mem {α : Type} {R S : α → α → Prop} :
    ∀ l : List α, (∀ a ∈ l, ∀ b ∈ l, R a b → S a b) →
      l.Pairwise R → l.Pairwise S := by
  intro l
  induction l with
  | nil => intro _ _; exact List.Pairwise.nil
  | cons x xs ih =>
    intro h hp
    rcases hp with - | ⟨hx, hxs⟩
    constructor
    · intro b hb
      exact h x (by simp) b (by simp [hb]) (hx b hb)
    · exact ih (fun a ha b hb hr => h a (by simp [ha]) b (by simp [hb]) hr) hxs

/-- Provenance of an output line: it was formatted from some input segment
that has a start value. -/
theorem mem_convert (segs : List Segment) (a : String)
    (ha : a ∈ convert_lyrics_to_lrc segs) :
    ∃ item ∈ segs, ∃ q : ℚ, item.start = some q ∧ a = lrcLine q item.text := by
  rw [convert_lyrics_to_lrc, List.mem_insertionSort, List.mem_filterMap] at ha
  obtain ⟨item, hitem, hmap⟩ := ha
  cases hq : item.start with
  | none => rw [hq] at hmap; simp at hmap
  | some q =>
    rw [hq] at hmap
    simp only [Option.map_some'] at hmap
    exact ⟨item, hitem, q, hq, by injection hmap.symm⟩

theorem filterMap_start_length (segs : List Segment) :
    (segs.filterMap (fun item => item.start.map (fun s => lrcLine s item.text))).length =
      (segs.filter (fun s => s.start.isSome)).length := by
  induction segs with
  | nil => rfl
  | cons a l ih =>
    cases h : a.start with
    | none => simp [List.filterMap_cons, List.filter_cons, h, ih]
    | some q => simp [List.filterMap_cons, List.filter_cons, h, ih]

/-- C9 (amended): `convert_lyrics_to_lrc` produces exactly one output line
per input segment that has a start timestamp (segments without one are
skipped); for inputs whose start values lie in `[0, 6000)` seconds the
output lines appear in non-decreasing order of their rendered
centisecond-precision timestamps; and the rendered timestamp equals the
original start exactly whenever the start is a whole number of
centiseconds.  (The original claim fails for segments without a start and
for starts of 100 minutes or more, see the counterexample.) -/
theorem C9_lrc_amended :
    (∀ segs : List Segment,
       (convert_lyrics_to_lrc segs).length =
         (segs.filter (fun s => s.start.isSome)).length) ∧
    (∀ segs : List Segment,
       (∀ s ∈ segs, ∀ q : ℚ, s.start = some q → 0 ≤ q ∧ q < 6000) →
       (convert_lyrics_to_lrc segs).Pairwise
         (fun a b => decodeCenti a ≤ decodeCenti b)) ∧
    (∀ (k : ℕ) (text : String), k < 600000 →
       decodeCenti (lrcLine ((k : ℚ) / 100) text) = k) := by
  refine ⟨?_, ?_, ?_⟩
  · intro segs
    rw [convert_lyrics_to_lrc, List.length_insertionSort]
    exact filterMap_start_length segs
  · intro segs hrange
    have hsorted : (convert_lyrics_to_lrc segs).Pairwise pyStrLe := by
      haveI ht : IsTotal String pyStrLe :=
        ⟨fun a b => charListLe_total a.toList b.toList⟩
      haveI htr : IsTrans String pyStrLe :=
        ⟨fun a b c => charListLe_trans a.toList b.toList c.toList⟩
      exact List.sorted_insertionSort pyStrLe _
    refine pairwise_imp_mem _ ?_ hsorted
    intro a ha b hb hab
    obtain ⟨ia, hia, qa, hqa, rfl⟩ := mem_convert segs a ha
    obtain ⟨ib, hib, qb, hqb, rfl⟩ := mem_convert segs b hb
    obtain ⟨h0a, h1a⟩ := hrange ia hia qa hqa
    obtain ⟨h0b, h1b⟩ := hrange ib hib qb hqb
    obtain ⟨hfa, hma, hsca⟩ := format_timestamp_tsChars qa h0a h1a
    obtain ⟨hfb, hmb, hscb⟩ := format_timestamp_tsChars qb h0b h1b
    have hda : decodeCenti (lrcLine qa ia.text) =
        6000 * (⌊qa / 60⌋).toNat + (round (100 * (qa - 60 * ⌊qa / 60⌋))).toNat := by
      rw [lrcLine, hfa]
      exact decodeCenti_tsChars _ _ hma hsca _
    have hdb : decodeCenti (lrcLine qb ib.text) =
        6000 * (⌊qb / 60⌋).toNat + (round (100 * (qb - 60 * ⌊qb / 60⌋))).toNat := by
      rw [lrcLine, hfb]
      exact decodeCenti_tsChars _ _ hmb hscb _
    rw [hda, hdb]
    by_contra hlt
    push_neg at hlt
    have hfalse := tsChars_le_false hma hmb hsca hscb hlt
      (cleanText ia.text) (cleanText ib.text)
    rw [pyStrLe, lrcLine, lrcLine, hfa, hfb] at hab
    simp only [show ∀ l : List Char, (String.mk l).toList = l from fun _ => rfl] at hab
    rw [hfalse] at hab
    exact absurd hab (by simp)
  · intro k text hk
    have h0 : (0 : ℚ) ≤ (k : ℚ) / 100 := by positivity
    have h1 : (k : ℚ) / 100 < 6000 := by
      rw [div_lt_iff (by norm_num : (0 : ℚ) < 100)]
      exact_mod_cast show (k : ℚ) < 600000 by exact_mod_cast Nat.cast_lt.mpr hk
    obtain ⟨hf, hm, hsc⟩ := format_timestamp_tsChars _ h0 h1
    have hdm := Nat.div_add_mod k 6000
    have hmod : k % 6000 < 6000 := Nat.mod_lt _ (by norm_num)
    have heqdiv : ((k : ℚ) / 100) / 60 = (k : ℚ) / 6000 := by ring
    have hfl : ⌊((k : ℚ) / 100) / 60⌋ = ((k / 6000 : ℕ) : ℤ) := by
      rw [heqdiv, Int.floor_eq_iff]
      constructor
      · rw [le_div_iff (by norm_num : (0 : ℚ) < 6000)]
        exact_mod_cast Nat.div_mul_le_self k 6000
      · rw [div_lt_iff (by norm_num : (0 : ℚ) < 6000)]
        have hnat : k < (k / 6000 + 1) * 6000 := by omega
        push_cast
        exact_mod_cast hnat
    have hsecval : (100 : ℚ) * ((k : ℚ) / 100 - 60 * ((k / 6000 : ℕ) : ℚ)) =
        ((k % 6000 : ℕ) : ℚ) := by
      have hcast : (6000 : ℚ) * ((k / 6000 : ℕ) : ℚ) + ((k % 6000 : ℕ) : ℚ) = (k : ℚ) := by
        exact_mod_cast congrArg (Nat.cast : ℕ → ℚ) hdm
      field_simp
      linarith
    have hround : round ((100 : ℚ) * ((k : ℚ) / 100 - 60 * ⌊((k : ℚ) / 100) / 60⌋)) =
        ((k % 6000 : ℕ) : ℤ) := by
      rw [hfl]
      have hcast2 : ((((k / 6000 : ℕ) : ℤ)) : ℚ) = ((k / 6000 : ℕ) : ℚ) :=
        Int.cast_natCast _
      rw [hcast2, hsecval]
      exact round_natCast _
    rw [lrcLine, hf, decodeCenti_tsChars _ _ hm hsc, hround, hfl]
    simp only [Int.toNat_natCast]
    omega

/-- A small segment list with in-range starts and one start-less segment. -/
def segsW : List Segment :=
  [⟨some 90, "y"⟩, ⟨some 30, "x"⟩, ⟨Option.none, "z"⟩]

/-- Closed witness for `C9_lrc_amended` at concrete inputs. -/
theorem C9_lrc_amended_witness :
    (convert_lyrics_to_lrc segsW).length =
      (segsW.filter (fun s => s.start.isSome)).length ∧
    (convert_lyrics_to_lrc segsW).Pairwise
      (fun a b => decodeCenti a ≤ decodeCenti b) ∧
    decodeCenti (lrcLine (((344 : ℕ) : ℚ) / 100) "hi") = 344 :=
  ⟨C9_lrc_amended.1 segsW,
   C9_lrc_amended.2.1 segsW (by
     intro s hs q hq
     simp only [segsW, List.mem_cons, List.not_mem_nil, or_false] at hs
     rcases hs with rfl | rfl | rfl
     · injection hq with h
       rw [← h]
       norm_num
     · injection hq with h
       rw [← h]
       norm_num
     · exact absurd hq (by simp)),
   C9_lrc_amended.2.2 344 "hi" (by norm_num)⟩

end AIMusic
